import Mathlib

/-!
Verification of the configuration-resolution and command-synthesis engine of
the helm deployment action (`src/index.js`).

The source is a single Node.js file.  We shallowly embed it:

* `Js` models loosely-typed JavaScript values (the action's inputs and the
  fields of a webhook deployment payload), together with JS truthiness,
  `typeof`, string coercion and property access.
* The pure helpers `releaseName`, `chartName`, `getValues`, `getPlugins`,
  `getValueFiles`, `getInput` and `deleteCmd` are translated function by
  function.
* `JSON.parse` is external library code; every decoding function is
  parameterised by `parse : String → Option Js` where `none` models a parse
  exception.
* The orchestration (`addRepo`, `installPlugins`, `deploy`, `run`) is modelled
  as functions producing a result together with the ordered trace of external
  effects (`Event`): process invocations (`exec.exec`, with the
  `ignoreReturnCode` option recorded) and deployment-status notifications.
  Exit codes of external processes are supplied by an oracle
  `World : String → List String → Nat`; per the `@actions/exec` contract a
  non-zero exit code raises unless `ignoreReturnCode` was requested.
  Filesystem and environment effects (kubeconfig materialisation, XDG
  variables, the advisory `fs.accessSync` check) are out of scope per the
  specification and produce no events.
-/

/-- JavaScript values as they occur in the action: strings (all explicit
workflow inputs), and arbitrary JSON-like data from the webhook deployment
payload.  `undefined` models the JavaScript value of the same name (e.g. a missing property). -/
inductive Js where
  | str (s : String)
  | num (n : Int)
  | boolean (b : Bool)
  | null
  | undefined
  | arr (elems : List Js)
  | obj (fields : List (String × Js))
deriving Repr

/-- JavaScript truthiness. -/
def Js.truthy : Js → Bool
  | .str s => s ≠ ""
  | .num n => n ≠ 0
  | .boolean b => b
  | .null => false
  | .undefined => false
  | .arr _ => true
  | .obj _ => true

/-- JavaScript `typeof`. -/
def Js.typeof : Js → String
  | .str _ => "string"
  | .num _ => "number"
  | .boolean _ => "boolean"
  | .null => "object"
  | .undefined => "undefined"
  | .arr _ => "object"
  | .obj _ => "object"

mutual

/-- JavaScript string coercion `String(v)`, as used by template literals and
when values reach `exec` argument vectors. -/
def Js.toStr : Js → String
  | .str s => s
  | .num n => toString n
  | .boolean b => if b then "true" else "false"
  | .null => "null"
  | .undefined => "undefined"
  | .arr l => Js.arrToStr l
  | .obj _ => "[object Object]"

/-- `Array.prototype.toString`: elements joined by commas, with `null` and
`undefined` elements rendered as the empty string. -/
def Js.arrToStr : List Js → String
  | [] => ""
  | [.null] => ""
  | [.undefined] => ""
  | [x] => Js.toStr x
  | .null :: xs => "," ++ Js.arrToStr xs
  | .undefined :: xs => "," ++ Js.arrToStr xs
  | x :: xs => Js.toStr x ++ "," ++ Js.arrToStr xs

end

/-- Strict equality `v === "lit"` against a string literal. -/
def Js.isStrEq (v : Js) (s : String) : Bool :=
  match v with
  | .str t => t = s
  | _ => false

/-- Strict equality `v === true`. -/
def Js.isBoolTrue (v : Js) : Bool :=
  match v with
  | .boolean b => b
  | _ => false

/-- Property access `v[k]` for the shapes the action reads fields from.
Accessing a property of a primitive yields `undefined`; the callers guard the
`null`/`undefined` receivers (where JS would throw) separately. -/
def Js.getProp (v : Js) (k : String) : Js :=
  match v with
  | .obj l => ((l.find? (fun p => p.1 = k)).map Prod.snd).getD .undefined
  | _ => .undefined

/-- `Object.entries` (throws `TypeError` on `null`/`undefined`; enumerates
index/character pairs on strings, index/element pairs on arrays, own fields on
objects, nothing on other primitives). -/
def jsEntries : Js → Except String (List (String × Js))
  | .obj l => .ok l
  | .arr l => .ok (l.enum.map (fun p => (toString p.1, p.2)))
  | .str s => .ok (s.toList.enum.map (fun p => (toString p.1, Js.str (String.singleton p.2))))
  | .null => .error "TypeError"
  | .undefined => .error "TypeError"
  | .num _ => .ok []
  | .boolean _ => .ok []

/-! ## Input resolution (`getInput`, source lines 114-129) -/

/-- Explicit workflow inputs, keyed by their (hyphenated) external names.
`core.getInput` yields `""` for an absent input. -/
def Params := List (String × String)

/-- `core.getInput`: look an explicit input up by name, empty when missing. -/
def lookupParam (params : Params) (name : String) : String :=
  ((params.find? (fun p => p.1 = name)).map Prod.snd).getD ""

/-- The webhook deployment object: top-level fields and the nested `payload`
sub-object. -/
structure Deployment where
  fields : List (String × Js)
  payload : List (String × Js)

/-- Lookup in a deployment object's field list; a missing key is `undefined`. -/
def dlookup (l : List (String × Js)) (name : String) : Js :=
  ((l.find? (fun p => p.1 = name)).map Prod.snd).getD .undefined

/-- `name.replace("_", "-")`: JavaScript `String.replace` with a string
pattern replaces only the first occurrence. -/
def hyphenateChars : List Char → List Char
  | [] => []
  | '_' :: rest => '-' :: rest
  | c :: rest => c :: hyphenateChars rest

/-- External (hyphenated) lookup name of an input. -/
def hyphenate (name : String) : String :=
  String.mk (hyphenateChars name.toList)

/-- `getInput(name, options)` without the required check: start from the
explicit parameter (hyphenated name), then let a truthy deployment-object
field override it, then let a truthy deployment-payload field override that. -/
def getInputV (params : Params) (ctx : Option Deployment) (name : String) : Js :=
  let v0 : Js := .str (lookupParam params (hyphenate name))
  match ctx with
  | none => v0
  | some d =>
    let v1 := if (dlookup d.fields name).truthy then dlookup d.fields name else v0
    if (dlookup d.payload name).truthy then dlookup d.payload name else v1

/-- Errors thrown by the action's own code (all surface as the run's failure
reason through the orchestrator's top-level handler). -/
inductive HelmError where
  | missingInput (name : String)
  | missingRepoAlias
  | toolFailure
  | typeError (msg : String)
deriving Repr, DecidableEq

/-- `getInput(name, { required: true })`: as `getInputV`, but a falsy final
value throws `Input required and not supplied: <name>`. -/
def getInputR (params : Params) (ctx : Option Deployment) (name : String) :
    Except HelmError Js :=
  let v := getInputV params ctx name
  if v.truthy then .ok v else .error (.missingInput name)

/-! ## Pure helpers (source lines 46-143) -/

/-- `releaseName(name, track)` (source lines 46-51). -/
def releaseName (name track : Js) : Js :=
  if track.isStrEq "stable" then name
  else .str (name.toStr ++ "-" ++ track.toStr)

/-- `chartName(name)` (source lines 53-58). -/
def chartName (name : Js) : Js :=
  if name.isStrEq "app" then .str "/usr/src/charts/app" else name

/-- `getValues(values)` (source lines 60-69): parse a string input as JSON,
falling back to the raw string; pass non-strings through. -/
def getValues (parse : String → Option Js) (values : Js) : Js :=
  match values with
  | .str s => match parse s with
    | some v => v
    | none => .str s
  | v => v

/-- The `map` callback of `getPlugins` (source lines 86-92): strings become
`{url: e}`, `typeof e === "object"` values pass through, anything else maps to
`undefined` (the callback falls off the end without returning). -/
def pluginMap (e : Js) : Js :=
  if e.typeof = "string" then .obj [("url", e)]
  else if e.typeof = "object" then e
  else .undefined

/-- The `filter` callback of `getPlugins` (source line 93),
`f => !!f || typeof(f.url) == 'undefined'`: a truthy `f` is kept outright;
otherwise JS evaluates `f.url`, which throws a `TypeError` when `f` is
`null`/`undefined`. -/
def pluginKeep (f : Js) : Except String Bool :=
  if f.truthy then .ok true
  else match f with
    | .null => .error "TypeError"
    | .undefined => .error "TypeError"
    | v => .ok ((v.getProp "url").typeof = "undefined")

/-- `Array.prototype.filter` with a callback that may throw. -/
def filterE (p : Js → Except String Bool) : List Js → Except String (List Js)
  | [] => .ok []
  | x :: xs => do
    let b ← p x
    let rest ← filterE p xs
    pure (if b then x :: rest else rest)

/-- `getPlugins(plugins)` (source lines 71-94). -/
def getPlugins (parse : String → Option Js) (plugins : Js) :
    Except String (List Js) :=
  let pluginList : Js :=
    match plugins with
    | .str s => match parse s with
      | some v => v
      | none => .arr [.str s]
    | v => v
  match pluginList with
  | .arr l => filterE pluginKeep (l.map pluginMap)
  | _ => .ok []

/-- `getValueFiles(files)` (source lines 96-112). -/
def getValueFiles (parse : String → Option Js) (files : Js) : List Js :=
  let fileList : Js :=
    match files with
    | .str s => match parse s with
      | some v => v
      | none => .arr [.str s]
    | v => v
  match fileList with
  | .arr l => l.filter Js.truthy
  | _ => []

/-- `deleteCmd(helm, namespace, release)` (source lines 138-143). -/
def deleteCmd (helm namespace_ release : Js) : List String :=
  if helm.isStrEq "helm3" then
    ["delete", "-n", namespace_.toStr, release.toStr]
  else
    ["delete", "--purge", release.toStr]

/-! ## Effect traces

External effects are recorded in order: each `exec.exec(bin, args, opts)`
call (with whether `ignoreReturnCode` was requested) and each deployment
status notification actually attempted by `status(state)`. -/

/-- One observable external effect. -/
inductive Event where
  | exec (bin : String) (args : List String) (ignoreReturnCode : Bool)
  | notify (state : String)
deriving Repr, DecidableEq

/-- Exit-code oracle for external processes: the code a given invocation
would exit with. -/
def World := String → List String → Nat

/-- Result of a stage: the value or thrown error, together with the events
emitted before returning/throwing. -/
def EvRes (α : Type) := Except HelmError α × List Event

/-- Sequencing of stages: on success continue (events accumulate),
on a thrown error stop with the events so far. -/
def bindE {α β : Type} (x : EvRes α) (f : α → EvRes β) : EvRes β :=
  match x with
  | (Except.ok a, tr) => ((f a).1, tr ++ (f a).2)
  | (Except.error e, tr) => (Except.error e, tr)

/-- A pure stage: no events, no error. -/
def pureE {α : Type} (a : α) : EvRes α :=
  (Except.ok a, [])

/-- `exec.exec(bin, args, options)`: the invocation is recorded, the oracle
supplies the exit code, and per `@actions/exec` a non-zero code raises unless
`ignoreReturnCode` was requested (then the code is returned). -/
def execE (w : World) (bin : String) (args : List String)
    (ignoreReturnCode : Bool) : EvRes Nat :=
  let c := w bin args
  (if c ≠ 0 ∧ ¬ignoreReturnCode then .error .toolFailure else .ok c,
   [Event.exec bin args ignoreReturnCode])

/-- `status(state)` (source lines 18-44): the API call is attempted only when
both a `token` input and a deployment context are present; its own failures
are caught, so it never throws. -/
def statusRun (params : Params) (ctx : Option Deployment) (state : String) :
    EvRes Unit :=
  match ctx with
  | some _ =>
    if lookupParam params "token" ≠ "" then (.ok (), [Event.notify state])
    else (.ok (), [])
  | none => (.ok (), [])

/-! ## `addRepo` (source lines 148-181) -/

/-- `addRepo(helm)`: when a repo URL is configured, require an alias and issue
`repo add` (with optional credential flags) followed by `repo update`. -/
def addRepoRun (w : World) (params : Params) (ctx : Option Deployment)
    (helm : Js) : EvRes Unit :=
  let repo := getInputV params ctx "repo"
  let repoAlias := getInputV params ctx "repo-alias"
  let repoUsername := getInputV params ctx "repo-username"
  let repoPassword := getInputV params ctx "repo-password"
  if ¬repo.isStrEq "" then
    if repoAlias.isStrEq "" then (.error .missingRepoAlias, [])
    else
      let args := ["repo", "add", repoAlias.toStr, repo.toStr]
        ++ (if repoUsername.truthy then ["--username=" ++ repoUsername.toStr] else [])
        ++ (if repoPassword.truthy then ["--password=" ++ repoPassword.toStr] else [])
      bindE (execE w helm.toStr args false) (fun _ =>
      bindE (execE w helm.toStr ["repo", "update"] false) (fun _ =>
      pureE ()))
  else pureE ()

/-! ## `installPlugins` (source lines 186-236) -/

/-- Strip the trailing run of `/` characters (`.replace(/\/+$/g, '')`). -/
def stripTrailingSlashes (l : List Char) : List Char :=
  (l.reverse.dropWhile (fun c => c = '/')).reverse

/-- Replace every run of `:` and `/` characters by a single `-`
(`.replace(/[:/]+/g, '-')`); the flag tracks whether we are inside a run. -/
def collapseColonSlash : Bool → List Char → List Char
  | _, [] => []
  | inRun, c :: rest =>
    if c = ':' ∨ c = '/' then
      if inRun then collapseColonSlash true rest
      else '-' :: collapseColonSlash true rest
    else c :: collapseColonSlash false rest

/-- The residual clone-directory slug of a plugin url (source line 215):
`url.trim().replace(/\/+$/g, '').replace(/[:/]+/g, '-')`. -/
def slugUrl (url : String) : String :=
  String.mk (collapseColonSlash false (stripTrailingSlashes url.trim.toList))

/-- The fixed plugin-cache root (source line 10). -/
def pluginDir : String := "/root/.helm/helm/plugins/"

/-- The loop body of `installPlugins` over the normalized plugin list
(source lines 189-235): skip entries without a truthy url; run
`plugin install <url> [--version <v>]` (a failure raises and aborts the rest);
then best-effort remove the residual clone directory (`rm -rf`, return code
ignored).  Computing the slug calls `.trim()` on the url, which throws a
`TypeError` when the url is not a string. -/
def installLoop (w : World) (helm : Js) : List Js → EvRes Unit
  | [] => pureE ()
  | p :: ps =>
    if ¬(p.getProp "url").truthy ∨ (p.getProp "url").typeof = "undefined" then
      installLoop w helm ps
    else
      let url := p.getProp "url"
      let args := ["plugin", "install", url.toStr]
        ++ (if (p.getProp "version").truthy
            then ["--version " ++ (p.getProp "version").toStr] else [])
      bindE (execE w helm.toStr args false) (fun c =>
        if c ≠ 0 then pureE ()
        else
          match url with
          | .str s =>
            bindE (execE w "rm" ["-rf", pluginDir ++ slugUrl s] true) (fun _ =>
              installLoop w helm ps)
          | _ => (.error (.typeError "TypeError"), []))

/-- `installPlugins(helm)`: normalize the `plugins` input (a thrown
`TypeError` from `getPlugins` propagates), then run the install loop. -/
def installPluginsRun (w : World) (parse : String → Option Js)
    (params : Params) (ctx : Option Deployment) (helm : Js) : EvRes Unit :=
  match getPlugins parse (getInputV params ctx "plugins") with
  | .error e => (.error (.typeError e), [])
  | .ok ps => installLoop w helm ps

/-! ## `deploy` (source lines 241-324) -/

/-- The configuration resolved at the top of `deploy` (source lines 244-257),
in source order; `release` is the computed track-suffixed release name. -/
structure Config where
  track : Js
  appName : Js
  release : Js
  nspace : Js
  chart : Js
  chartVersion : Js
  values : Js
  task : Js
  version : Js
  valueFiles : List Js
  removeCanary : Js
  timeout : Js
  dryRun : Js
  atomic : Js
deriving Repr

/-- Input resolution of `deploy` (source lines 244-257).  All inputs go
through the deployment-aware `getInput` except `dry-run`, which the source
reads with plain `core.getInput("dry-run")`.  `atomic` is
`getInput("atomic") || true`. -/
def deployResolve (parse : String → Option Js) (params : Params)
    (ctx : Option Deployment) : Except HelmError Config :=
  let track := let t := getInputV params ctx "track"
               if t.truthy then t else Js.str "stable"
  match getInputR params ctx "release" with
  | .error e => .error e
  | .ok appName =>
    match getInputR params ctx "namespace" with
    | .error e => .error e
    | .ok nspace =>
      match getInputR params ctx "chart" with
      | .error e => .error e
      | .ok chart0 =>
        .ok { track := track
              appName := appName
              release := releaseName appName track
              nspace := nspace
              chart := chartName chart0
              chartVersion := getInputV params ctx "chart_version"
              values := getValues parse (getInputV params ctx "values")
              task := getInputV params ctx "task"
              version := getInputV params ctx "version"
              valueFiles := getValueFiles parse (getInputV params ctx "value_files")
              removeCanary := getInputV params ctx "remove_canary"
              timeout := getInputV params ctx "timeout"
              dryRun := .str (lookupParam params "dry-run")
              atomic := let a := getInputV params ctx "atomic"
                        if a.truthy then a else .boolean true }

/-- Base upgrade arguments plus the conditional scalar flags, in source order
(source lines 276-289). -/
def upgradeBaseArgs (c : Config) : List String :=
  ["upgrade", c.release.toStr, c.chart.toStr, "--install", "--wait",
   "--namespace=" ++ c.nspace.toStr]
  ++ (if c.dryRun.truthy then ["--dry-run"] else [])
  ++ (if c.appName.truthy then ["--set=app.name=" ++ c.appName.toStr] else [])
  ++ (if c.version.truthy then ["--set=app.version=" ++ c.version.toStr] else [])
  ++ (if c.chartVersion.truthy then ["--version=" ++ c.chartVersion.toStr] else [])
  ++ (if c.timeout.truthy then ["--timeout=" ++ c.timeout.toStr] else [])

/-- One `-f <file>` argument per value file, in order (source line 291). -/
def fileArgs (c : Config) : List String :=
  c.valueFiles.map (fun f => "-f " ++ f.toStr)

/-- One `--set <key>=<value>` argument per entry of the values mapping, in
entry order (source line 292). -/
def setArgs (entries : List (String × Js)) : List String :=
  entries.map (fun p => "--set " ++ p.1 ++ "=" ++ p.2.toStr)

/-- The canary flags (source lines 297-299). -/
def canaryArgs (c : Config) : List String :=
  if c.track.isStrEq "canary" then
    ["--set=service.enabled=false", "--set=ingress.enabled=false"]
  else []

/-- The atomic flag (source lines 302-304): appended only on `atomic === true`. -/
def atomicArgs (c : Config) : List String :=
  if c.atomic.isBoolTrue then ["--atomic"] else []

/-- The full upgrade argument vector (source lines 276-304);
`Object.entries(values)` can throw. -/
def upgradeArgs (c : Config) : Except String (List String) :=
  (jsEntries c.values).map (fun es =>
    upgradeBaseArgs c ++ fileArgs c ++ setArgs es ++ canaryArgs c ++ atomicArgs c)

/-- The effectful tail of `deploy` (source lines 276-323): synthesize the
upgrade arguments (entry enumeration may throw), best-effort delete the
canary release when `removeCanary` is truthy, then either run the delete
command for the primary release with its return code ignored
(`task === "remove"`) or run the upgrade command (a non-zero exit raises). -/
def deployExec (w : World) (helm : Js) (c : Config) : EvRes Nat :=
  match upgradeArgs c with
  | .error msg => (.error (.typeError msg), [])
  | .ok args =>
    bindE (if c.removeCanary.truthy then
             execE w helm.toStr
               (deleteCmd helm c.nspace (.str (c.appName.toStr ++ "-canary"))) true
           else pureE 0) (fun _ =>
      if c.task.isStrEq "remove" then
        execE w helm.toStr (deleteCmd helm c.nspace c.release) true
      else
        execE w helm.toStr args false)

/-- `deploy(helm)`: resolve, then execute. -/
def deployRun (w : World) (parse : String → Option Js) (params : Params)
    (ctx : Option Deployment) (helm : Js) : EvRes Nat :=
  match deployResolve parse params ctx with
  | .error e => (.error e, [])
  | .ok c => deployExec w helm c

/-! ## `run` (source lines 329-358) -/

/-- `getInput("helm") || "helm3"` (source line 345). -/
def helmOf (params : Params) (ctx : Option Deployment) : Js :=
  let h := getInputV params ctx "helm"
  if h.truthy then h else .str "helm3"

/-- The body of `run`'s `try` block: pending status, then
`addRepo`, `installPlugins`, `deploy` in order, then success status.
(Environment-variable and kubeconfig setup are external filesystem effects
with no bearing on the modelled trace.) -/
def runBody (w : World) (parse : String → Option Js) (params : Params)
    (ctx : Option Deployment) : EvRes Unit :=
  bindE (statusRun params ctx "pending") (fun _ =>
  bindE (addRepoRun w params ctx (helmOf params ctx)) (fun _ =>
  bindE (installPluginsRun w parse params ctx (helmOf params ctx)) (fun _ =>
  bindE (deployRun w parse params ctx (helmOf params ctx)) (fun _ =>
  statusRun params ctx "success"))))

/-- Terminal outcome of a run: clean completion, or the caught error that
`core.setFailed` surfaces. -/
inductive Outcome where
  | success
  | failure (e : HelmError)
deriving Repr, DecidableEq

/-- `run()` (source lines 329-358): on a thrown error the catch block marks
the run failed and attempts a failure status notification. -/
def runAction (w : World) (parse : String → Option Js) (params : Params)
    (ctx : Option Deployment) : Outcome × List Event :=
  match runBody w parse params ctx with
  | (.ok _, tr) => (.success, tr)
  | (.error e, tr) => (.failure e, tr ++ (statusRun params ctx "failure").2)

/-! ## Trace observations -/

/-- The subcommand an invocation starts with, when it is an invocation. -/
def Event.argHead : Event → Option String
  | .exec _ (a :: _) _ => some a
  | _ => none

/-- Whether an event is a delete or upgrade invocation. -/
def Event.isDeleteOrUpgrade (ev : Event) : Bool :=
  match ev with
  | .exec _ (a :: _) _ => a = "delete" ∨ a = "upgrade"
  | _ => false

/-- No delete and no upgrade invocation occurs in the trace. -/
def noDeployDelete (tr : List Event) : Bool :=
  tr.all (fun ev => !ev.isDeleteOrUpgrade)

/-- How many failure-status notifications the trace attempts. -/
def countFailNotify (tr : List Event) : Nat :=
  tr.countP (fun ev => decide (ev = Event.notify "failure"))

/-! ## Event-shape lemmas for the pipeline stages -/

theorem bindE_eq_ok {α β : Type} (x : EvRes α) (f : α → EvRes β) (a : α)
    (tr : List Event) (h : x = (Except.ok a, tr)) :
    bindE x f = ((f a).1, tr ++ (f a).2) := by
  subst h; rfl

theorem bindE_eq_error {α β : Type} (x : EvRes α) (f : α → EvRes β)
    (e : HelmError) (tr : List Event) (h : x = (Except.error e, tr)) :
    bindE x f = (Except.error e, tr) := by
  subst h; rfl

theorem statusRun_fst (params : Params) (ctx : Option Deployment) (s : String) :
    (statusRun params ctx s).1 = Except.ok () := by
  unfold statusRun
  cases ctx with
  | none => rfl
  | some d => by_cases h : lookupParam params "token" ≠ "" <;> simp [h]

theorem statusRun_events (params : Params) (ctx : Option Deployment)
    (s : String) : ∀ ev ∈ (statusRun params ctx s).2, ev = Event.notify s := by
  unfold statusRun
  cases ctx with
  | none => simp
  | some d =>
    by_cases h : lookupParam params "token" ≠ "" <;> simp [h]

theorem statusRun_some_token (params : Params) (d : Deployment) (s : String)
    (h : lookupParam params "token" ≠ "") :
    statusRun params (some d) s = (Except.ok (), [Event.notify s]) := by
  simp [statusRun, h]

theorem mem_bindE_events {α β : Type} (x : EvRes α) (f : α → EvRes β)
    (ev : Event) (h : ev ∈ (bindE x f).2) : ev ∈ x.2 ∨ ∃ a, ev ∈ (f a).2 := by
  unfold bindE at h
  rcases x with ⟨r, tr⟩
  cases r with
  | ok a =>
    simp only [List.mem_append] at h
    rcases h with h | h
    · exact Or.inl h
    · exact Or.inr ⟨a, h⟩
  | error e => exact Or.inl h

theorem execE_events (w : World) (bin : String) (args : List String)
    (ig : Bool) : (execE w bin args ig).2 = [Event.exec bin args ig] := rfl

theorem addRepoRun_events (w : World) (params : Params)
    (ctx : Option Deployment) (helm : Js) :
    ∀ ev ∈ (addRepoRun w params ctx helm).2, ev.argHead = some "repo" := by
  intro ev hev
  simp only [addRepoRun] at hev
  split at hev
  · split at hev
    · simp at hev
    · rcases mem_bindE_events _ _ _ hev with h | ⟨a, h⟩
      · rw [execE_events] at h
        simp at h
        subst h
        rfl
      · rcases mem_bindE_events _ _ _ h with h2 | ⟨a2, h2⟩
        · rw [execE_events] at h2
          simp at h2
          subst h2
          rfl
        · simp [pureE] at h2
  · simp [pureE] at hev

theorem installLoop_events (w : World) (helm : Js) : ∀ (ps : List Js),
    ∀ ev ∈ (installLoop w helm ps).2,
    ev.argHead = some "plugin" ∨ ev.argHead = some "-rf" := by
  intro ps
  induction ps with
  | nil => intro ev hev; simp [installLoop, pureE] at hev
  | cons p ps ih =>
    intro ev hev
    simp only [installLoop] at hev
    split at hev
    · exact ih ev hev
    · rcases mem_bindE_events _ _ _ hev with h | ⟨c, h⟩
      · rw [execE_events] at h
        simp at h
        subst h
        left; rfl
      · split at h
        · simp [pureE] at h
        · split at h
          · rcases mem_bindE_events _ _ _ h with h2 | ⟨a2, h2⟩
            · rw [execE_events] at h2
              simp at h2
              subst h2
              right; rfl
            · exact ih ev h2
          · simp at h

theorem bindE_fst_ok {α β : Type} {x : EvRes α} (f : α → EvRes β) {a : α}
    {tr : List Event} (h : x = (Except.ok a, tr)) :
    (bindE x f).1 = (f a).1 := by subst h; rfl

theorem bindE_fst_error {α β : Type} {x : EvRes α} (f : α → EvRes β)
    {e : HelmError} {tr : List Event} (h : x = (Except.error e, tr)) :
    (bindE x f).1 = Except.error e := by subst h; rfl

theorem bindE_snd_ok {α β : Type} {x : EvRes α} (f : α → EvRes β) {a : α}
    {tr : List Event} (h : x = (Except.ok a, tr)) :
    (bindE x f).2 = tr ++ (f a).2 := by subst h; rfl

theorem execE_ok {w : World} {bin : String} {args : List String}
    (h : w bin args = 0) :
    execE w bin args false = (Except.ok 0, [Event.exec bin args false]) := by
  simp [execE, h]

theorem execE_fail {w : World} {bin : String} {args : List String}
    (h : w bin args ≠ 0) :
    execE w bin args false
      = (Except.error .toolFailure, [Event.exec bin args false]) := by
  simp [execE, h]

theorem execE_ignore (w : World) (bin : String) (args : List String) :
    execE w bin args true
      = (Except.ok (w bin args), [Event.exec bin args true]) := by
  simp [execE]

theorem installLoop_fail (w : World) (helm : Js) : ∀ (ps : List Js)
    (b : String) (rest : List String),
    Event.exec b ("plugin" :: "install" :: rest) false ∈ (installLoop w helm ps).2 →
    w b ("plugin" :: "install" :: rest) ≠ 0 →
    ∃ e, (installLoop w helm ps).1 = Except.error e := by
  intro ps
  induction ps with
  | nil => intro b rest hmem _; simp [installLoop, pureE] at hmem
  | cons p ps ih =>
    intro b rest hmem hw
    simp only [installLoop] at hmem ⊢
    split at hmem
    · rename_i hc
      rw [if_pos hc]
      exact ih b rest hmem hw
    · rename_i hc
      rw [if_neg hc]
      by_cases hc0 : w helm.toStr
          (["plugin", "install", (p.getProp "url").toStr] ++
            (if (p.getProp "version").truthy = true
             then ["--version " ++ (p.getProp "version").toStr] else [])) = 0
      · rw [bindE_snd_ok _ (execE_ok hc0)] at hmem
        rw [bindE_fst_ok _ (execE_ok hc0)]
        rcases List.mem_append.mp hmem with hev | hev
        · exfalso
          simp only [List.mem_singleton] at hev
          injection hev with hb hargs hig
          exact hw (by rw [hb, hargs]; exact hc0)
        · simp only [ne_eq, not_true_eq_false] at hev ⊢
          simp only [reduceIte] at hev ⊢
          rcases hurl : p.getProp "url" with s | n | bb | _ | _ | l | flds
          · rw [hurl] at hev
            dsimp only at hev
            rw [bindE_snd_ok _ (execE_ignore w "rm" _)] at hev
            rw [bindE_fst_ok _ (execE_ignore w "rm" _)]
            rcases List.mem_append.mp hev with hev2 | hev2
            · simp at hev2
            · exact ih b rest hev2 hw
          all_goals exact ⟨_, rfl⟩
      · refine ⟨.toolFailure, ?_⟩
        exact bindE_fst_error _ (execE_fail hc0)

theorem installPluginsRun_events (w : World) (parse : String → Option Js)
    (params : Params) (ctx : Option Deployment) (helm : Js) :
    ∀ ev ∈ (installPluginsRun w parse params ctx helm).2,
    ev.argHead = some "plugin" ∨ ev.argHead = some "-rf" := by
  intro ev hev
  unfold installPluginsRun at hev
  rcases hgp : getPlugins parse (getInputV params ctx "plugins") with e | ps <;>
    rw [hgp] at hev
  · simp at hev
  · exact installLoop_events w helm ps ev hev

theorem installPluginsRun_fail (w : World) (parse : String → Option Js)
    (params : Params) (ctx : Option Deployment) (helm : Js) (b : String)
    (rest : List String)
    (hmem : Event.exec b ("plugin" :: "install" :: rest) false
      ∈ (installPluginsRun w parse params ctx helm).2)
    (hw : w b ("plugin" :: "install" :: rest) ≠ 0) :
    ∃ e, (installPluginsRun w parse params ctx helm).1 = Except.error e := by
  unfold installPluginsRun at hmem ⊢
  rcases hgp : getPlugins parse (getInputV params ctx "plugins") with e | ps
  · rw [hgp] at hmem
    simp at hmem
  · rw [hgp] at hmem
    exact installLoop_fail w helm ps b rest hmem hw

theorem deployExec_events (w : World) (helm : Js) (c : Config) :
    ∀ ev ∈ (deployExec w helm c).2,
    ev.argHead = some "delete" ∨ ev.argHead = some "upgrade" := by
  intro ev hev
  unfold deployExec at hev
  rcases hua : upgradeArgs c with msg | args <;> rw [hua] at hev
  · simp at hev
  · dsimp only at hev
    rcases mem_bindE_events _ _ _ hev with h | ⟨a, h⟩
    · split at h
      · rw [execE_events] at h
        simp at h
        subst h
        left
        unfold deleteCmd
        split <;> rfl
      · simp [pureE] at h
    · split at h
      · rw [execE_events] at h
        simp at h
        subst h
        left
        unfold deleteCmd
        split <;> rfl
      · rw [execE_events] at h
        simp at h
        subst h
        right
        unfold upgradeArgs at hua
        rcases hje : jsEntries c.values with e | es <;> rw [hje] at hua
        · simp [Except.map] at hua
        · simp [Except.map] at hua
          subst hua
          rfl

theorem deployRun_events (w : World) (parse : String → Option Js)
    (params : Params) (ctx : Option Deployment) (helm : Js) :
    ∀ ev ∈ (deployRun w parse params ctx helm).2,
    ev.argHead = some "delete" ∨ ev.argHead = some "upgrade" := by
  intro ev hev
  unfold deployRun at hev
  rcases hr : deployResolve parse params ctx with e | c <;> rw [hr] at hev
  · simp at hev
  · exact deployExec_events w helm c ev hev

theorem deployRun_resolve_error {parse : String → Option Js} {params : Params}
    {ctx : Option Deployment} {e : HelmError}
    (w : World) (helm : Js) (h : deployResolve parse params ctx = .error e) :
    deployRun w parse params ctx helm = (Except.error e, []) := by
  unfold deployRun
  rw [h]

theorem argHead_not_deleteOrUpgrade (ev : Event) (a : String)
    (h : ev.argHead = some a) (h1 : a ≠ "delete") (h2 : a ≠ "upgrade") :
    ev.isDeleteOrUpgrade = false := by
  cases ev with
  | notify s => rfl
  | exec b args ig =>
    cases args with
    | nil => rfl
    | cons x xs =>
      simp [Event.argHead] at h
      subst h
      simp [Event.isDeleteOrUpgrade, h1, h2]

theorem notify_not_deleteOrUpgrade (s : String) :
    (Event.notify s).isDeleteOrUpgrade = false := rfl

theorem countFailNotify_append (t1 t2 : List Event) :
    countFailNotify (t1 ++ t2) = countFailNotify t1 + countFailNotify t2 :=
  List.countP_append _ _ _

theorem countFailNotify_zero_of_exec (tr : List Event)
    (h : ∀ ev ∈ tr, ∃ a, ev.argHead = some a) : countFailNotify tr = 0 := by
  unfold countFailNotify
  rw [List.countP_eq_zero]
  intro ev hev
  rcases h ev hev with ⟨a, ha⟩
  simp only [decide_eq_true_eq]
  intro heq
  subst heq
  simp [Event.argHead] at ha

theorem bindE_snd_error {α β : Type} {x : EvRes α} (f : α → EvRes β)
    {e : HelmError} {tr : List Event} (h : x = (Except.error e, tr)) :
    (bindE x f).2 = tr := by subst h; rfl

theorem statusRun_eta (params : Params) (ctx : Option Deployment) (s : String) :
    statusRun params ctx s = (Except.ok (), (statusRun params ctx s).2) :=
  Prod.ext (statusRun_fst params ctx s) rfl

/-- The four-stage case analysis of `run`'s try block: the result and the
accumulated event trace, by where the pipeline first throws. -/
theorem runBody_cases (w : World) (parse : String → Option Js)
    (params : Params) (ctx : Option Deployment) :
    runBody w parse params ctx =
      (match addRepoRun w params ctx (helmOf params ctx) with
       | (.error e, tA) => (.error e, (statusRun params ctx "pending").2 ++ tA)
       | (.ok _, tA) =>
         match installPluginsRun w parse params ctx (helmOf params ctx) with
         | (.error e, tP) =>
           (.error e, (statusRun params ctx "pending").2 ++ (tA ++ tP))
         | (.ok _, tP) =>
           match deployRun w parse params ctx (helmOf params ctx) with
           | (.error e, tD) =>
             (.error e, (statusRun params ctx "pending").2 ++ (tA ++ (tP ++ tD)))
           | (.ok _, tD) =>
             (.ok (), (statusRun params ctx "pending").2
               ++ (tA ++ (tP ++ (tD ++ (statusRun params ctx "success").2))))) := by
  unfold runBody
  rw [bindE_eq_ok _ _ () _ (statusRun_eta params ctx "pending")]
  rcases hA : addRepoRun w params ctx (helmOf params ctx) with ⟨rA, tA⟩
  cases rA with
  | error eA => rfl
  | ok uA =>
    rcases hP : installPluginsRun w parse params ctx (helmOf params ctx) with ⟨rP, tP⟩
    cases rP with
    | error eP => rfl
    | ok uP =>
      rcases hD : deployRun w parse params ctx (helmOf params ctx) with ⟨rD, tD⟩
      cases rD with
      | error eD => rfl
      | ok cD =>
        refine Prod.ext ?_ ?_
        · exact statusRun_fst params ctx "success"
        · rfl

theorem noDeployDelete_of_shapes (tr : List Event)
    (h : ∀ ev ∈ tr, ev.isDeleteOrUpgrade = false) : noDeployDelete tr = true := by
  unfold noDeployDelete
  rw [List.all_eq_true]
  intro ev hev
  rw [h ev hev]
  rfl

theorem statusRun_shape (params : Params) (ctx : Option Deployment) (s : String) :
    ∀ ev ∈ (statusRun params ctx s).2, ev.isDeleteOrUpgrade = false := by
  intro ev hev
  rw [statusRun_events params ctx s ev hev]
  rfl

theorem addRepoRun_shape (w : World) (params : Params) (ctx : Option Deployment)
    (helm : Js) :
    ∀ ev ∈ (addRepoRun w params ctx helm).2, ev.isDeleteOrUpgrade = false :=
  fun ev hev =>
    argHead_not_deleteOrUpgrade ev "repo" (addRepoRun_events w params ctx helm ev hev)
      (by decide) (by decide)

theorem installPluginsRun_shape (w : World) (parse : String → Option Js)
    (params : Params) (ctx : Option Deployment) (helm : Js) :
    ∀ ev ∈ (installPluginsRun w parse params ctx helm).2,
      ev.isDeleteOrUpgrade = false := by
  intro ev hev
  rcases installPluginsRun_events w parse params ctx helm ev hev with h | h
  · exact argHead_not_deleteOrUpgrade ev "plugin" h (by decide) (by decide)
  · exact argHead_not_deleteOrUpgrade ev "-rf" h (by decide) (by decide)

theorem addRepoRun_countFail (w : World) (params : Params)
    (ctx : Option Deployment) (helm : Js) :
    countFailNotify (addRepoRun w params ctx helm).2 = 0 :=
  countFailNotify_zero_of_exec _
    (fun ev hev => ⟨"repo", addRepoRun_events w params ctx helm ev hev⟩)

theorem installPluginsRun_countFail (w : World) (parse : String → Option Js)
    (params : Params) (ctx : Option Deployment) (helm : Js) :
    countFailNotify (installPluginsRun w parse params ctx helm).2 = 0 :=
  countFailNotify_zero_of_exec _ (fun ev hev => by
    rcases installPluginsRun_events w parse params ctx helm ev hev with h | h
    · exact ⟨"plugin", h⟩
    · exact ⟨"-rf", h⟩)

theorem deployRun_countFail (w : World) (parse : String → Option Js)
    (params : Params) (ctx : Option Deployment) (helm : Js) :
    countFailNotify (deployRun w parse params ctx helm).2 = 0 :=
  countFailNotify_zero_of_exec _ (fun ev hev => by
    rcases deployRun_events w parse params ctx helm ev hev with h | h
    · exact ⟨"delete", h⟩
    · exact ⟨"upgrade", h⟩)

theorem statusRun_countFail (params : Params) (ctx : Option Deployment)
    (s : String) (h : s ≠ "failure") :
    countFailNotify (statusRun params ctx s).2 = 0 := by
  apply List.countP_eq_zero.mpr
  intro ev hev
  rw [statusRun_events params ctx s ev hev]
  simp [h]

theorem runAction_of_body_error {w : World} {parse : String → Option Js}
    {params : Params} {ctx : Option Deployment} {e : HelmError}
    {tr : List Event} (h : runBody w parse params ctx = (Except.error e, tr)) :
    runAction w parse params ctx
      = (.failure e, tr ++ (statusRun params ctx "failure").2) := by
  unfold runAction
  rw [h]

theorem runAction_of_body_ok {w : World} {parse : String → Option Js}
    {params : Params} {ctx : Option Deployment} {tr : List Event}
    (h : runBody w parse params ctx = (Except.ok (), tr)) :
    runAction w parse params ctx = (.success, tr) := by
  unfold runAction
  rw [h]

theorem isStrEq_true_iff (v : Js) (s : String) :
    v.isStrEq s = true ↔ v = .str s := by
  cases v <;> simp [Js.isStrEq]

/-- Is the value an array? -/
def Js.isArr : Js → Bool
  | .arr _ => true
  | _ => false

/-- Is the value a string? -/
def Js.isStr : Js → Bool
  | .str _ => true
  | _ => false

/-- A parse oracle under which every string fails to parse (as `JSON.parse`
does on, e.g., the empty string). -/
def parseNone : String → Option Js := fun _ => none

/-! ## Claims -/

/-- C9: For all namespace and release strings, the delete command equals
`["delete","-n",namespace,release]` when the tool variant is `"helm3"`, and
equals `["delete","--purge",release]` for any other variant. -/
theorem C9_delete_command_variants (helm : Js) (ns rel : String) :
    (helm = .str "helm3" →
      deleteCmd helm (.str ns) (.str rel) = ["delete", "-n", ns, rel])
    ∧ (helm ≠ .str "helm3" →
      deleteCmd helm (.str ns) (.str rel) = ["delete", "--purge", rel]) := by
  constructor
  · intro h
    subst h
    rfl
  · intro h
    have hb : helm.isStrEq "helm3" = false := by
      cases hbb : helm.isStrEq "helm3"
      · rfl
      · exact absurd ((isStrEq_true_iff _ _).mp hbb) h
    simp [deleteCmd, hb, Js.toStr]

theorem C9_delete_command_variants_witness :
    deleteCmd (.str "helm3") (.str "prod") (.str "myapp")
      = ["delete", "-n", "prod", "myapp"]
    ∧ deleteCmd (.str "helm2") (.str "prod") (.str "myapp")
      = ["delete", "--purge", "myapp"] :=
  ⟨(C9_delete_command_variants (.str "helm3") "prod" "myapp").1 rfl,
   (C9_delete_command_variants (.str "helm2") "prod" "myapp").2 (by simp)⟩

/-- C10: Value-file normalization keeps exactly the truthy entries of a
decoded sequence, in order (a parse failure wraps the raw string as a
one-element sequence first); empty strings are dropped; a non-sequence decode
result yields the empty list. -/
theorem C10_value_files_normalization (parse : String → Option Js)
    (l : List Js) (s : String) (v : Js) :
    getValueFiles parse (.arr l) = l.filter Js.truthy
    ∧ (parse s = some (.arr l) →
        getValueFiles parse (.str s) = l.filter Js.truthy)
    ∧ (parse s = none →
        getValueFiles parse (.str s) = [Js.str s].filter Js.truthy)
    ∧ Js.str "" ∉ getValueFiles parse (.arr l)
    ∧ (v.isArr = false → v.isStr = false → getValueFiles parse v = [])
    ∧ (parse s = some v → v.isArr = false →
        getValueFiles parse (.str s) = []) := by
  refine ⟨rfl, ?_, ?_, ?_, ?_, ?_⟩
  · intro h
    simp [getValueFiles, h]
  · intro h
    simp [getValueFiles, h]
  · intro hmem
    have hmem2 : Js.str "" ∈ l.filter Js.truthy := hmem
    have := List.of_mem_filter hmem2
    simp [Js.truthy] at this
  · intro h1 h2
    rcases v with s2 | n | b | _ | _ | l2 | f <;> simp_all [Js.isArr, Js.isStr, getValueFiles]
  · intro h hna
    simp only [getValueFiles, h]
    rcases v with s2 | n | b | _ | _ | l2 | f <;> simp_all [Js.isArr]

/-- Parse oracle that decodes every string to `["a", "", 0]`. -/
def parseArr3 : String → Option Js :=
  fun _ => some (.arr [.str "a", .str "", .num 0])

/-- Parse oracle that decodes every string to the number 5. -/
def parseNum5 : String → Option Js := fun _ => some (.num 5)

theorem C10_value_files_normalization_witness :
    getValueFiles parseArr3 (.arr [.str "a", .str "", .num 0]) = [.str "a"]
    ∧ getValueFiles parseArr3 (.str "x") = [.str "a"]
    ∧ getValueFiles parseNone (.str "") = []
    ∧ getValueFiles parseNum5 (.str "x") = []
    ∧ getValueFiles parseNum5 (.num 5) = [] := by
  have hA := C10_value_files_normalization parseArr3
    [.str "a", .str "", .num 0] "x" (.num 5)
  have hB := C10_value_files_normalization parseNum5 [] "x" (.num 5)
  have hC := C10_value_files_normalization parseNone [] "" (.num 5)
  exact ⟨hA.1.trans rfl, (hA.2.1 rfl).trans rfl, (hC.2.2.1 rfl).trans rfl,
    hB.2.2.2.2.2 rfl rfl, hB.2.2.2.2.1 rfl rfl⟩

/-- C8: Whenever the resolved track is `"canary"`, the synthesized upgrade
argument vector contains both `--set=service.enabled=false` and
`--set=ingress.enabled=false`, regardless of the other flags. -/
theorem C8_canary_disables_service_ingress (c : Config) (l : List String)
    (ht : c.track = .str "canary") (hu : upgradeArgs c = .ok l) :
    "--set=service.enabled=false" ∈ l ∧ "--set=ingress.enabled=false" ∈ l := by
  unfold upgradeArgs at hu
  rcases hje : jsEntries c.values with e | es <;> rw [hje] at hu
  · simp [Except.map] at hu
  · simp [Except.map] at hu
    subst hu
    have hc : canaryArgs c
        = ["--set=service.enabled=false", "--set=ingress.enabled=false"] := by
      unfold canaryArgs
      rw [ht]
      rfl
    constructor <;> simp [hc, List.mem_append]

/-- A canary-track configuration used to witness C8. -/
def cfgCanary : Config :=
  { track := .str "canary", appName := .str "app1",
    release := .str "app1-canary", nspace := .str "ns1",
    chart := .str "chart1", chartVersion := .str "1.2",
    values := .obj [("a", .num 1)], task := .str "", version := .str "",
    valueFiles := [.str "vals.yml"], removeCanary := .str "",
    timeout := .str "", dryRun := .str "", atomic := .boolean true }

theorem C8_canary_disables_service_ingress_witness :
    "--set=service.enabled=false" ∈
      ["upgrade", "app1-canary", "chart1", "--install", "--wait",
       "--namespace=ns1", "--set=app.name=app1", "--version=1.2",
       "-f vals.yml", "--set a=1", "--set=service.enabled=false",
       "--set=ingress.enabled=false", "--atomic"]
    ∧ "--set=ingress.enabled=false" ∈
      ["upgrade", "app1-canary", "chart1", "--install", "--wait",
       "--namespace=ns1", "--set=app.name=app1", "--version=1.2",
       "-f vals.yml", "--set a=1", "--set=service.enabled=false",
       "--set=ingress.enabled=false", "--atomic"] :=
  C8_canary_disables_service_ingress cfgCanary _ rfl rfl

/-- C7: For the values mapping `{"a":1,"b":"two"}` (also when string-encoded
and decoded by `getValues`), the upgrade vector is exactly the base and `-f`
arguments, then `--set a=1` and `--set b=two` in that key order, then the
canary flags and the atomic flag. -/
theorem C7_values_set_args (c : Config) (parse : String → Option Js)
    (s : String) :
    (c.values = .obj [("a", .num 1), ("b", .str "two")] →
      upgradeArgs c = .ok (upgradeBaseArgs c ++ fileArgs c
        ++ ["--set a=1", "--set b=two"] ++ canaryArgs c ++ atomicArgs c))
    ∧ (parse s = some (.obj [("a", .num 1), ("b", .str "two")]) →
      getValues parse (.str s) = .obj [("a", .num 1), ("b", .str "two")]) := by
  constructor
  · intro h
    unfold upgradeArgs
    rw [h]
    rfl
  · intro h
    simp [getValues, h]

/-- A configuration with both value files and all trailing flags, used to
witness C7. -/
def cfgValuesAB : Config :=
  { track := .str "canary", appName := .str "app2",
    release := .str "app2-canary", nspace := .str "ns2",
    chart := .str "chart2", chartVersion := .str "",
    values := .obj [("a", .num 1), ("b", .str "two")], task := .str "",
    version := .str "", valueFiles := [.str "f1.yml", .str "f2.yml"],
    removeCanary := .str "", timeout := .str "", dryRun := .str "",
    atomic := .boolean true }

/-- Parse oracle that decodes every string to `{"a":1,"b":"two"}`. -/
def parseObjAB : String → Option Js :=
  fun _ => some (.obj [("a", .num 1), ("b", .str "two")])

theorem C7_values_set_args_witness :
    upgradeArgs cfgValuesAB = .ok (upgradeBaseArgs cfgValuesAB
      ++ fileArgs cfgValuesAB ++ ["--set a=1", "--set b=two"]
      ++ canaryArgs cfgValuesAB ++ atomicArgs cfgValuesAB)
    ∧ getValues parseObjAB (.str "values-json")
      = .obj [("a", .num 1), ("b", .str "two")] :=
  ⟨(C7_values_set_args cfgValuesAB parseObjAB "values-json").1 rfl,
   (C7_values_set_args cfgValuesAB parseObjAB "values-json").2 rfl⟩

/-- C5 (code bug): plugin normalization is not total.  On a plugin entry that
is neither a string nor an object (here the number 1, e.g. from the input
`"[1]"`), the `map` callback returns `undefined` and the `filter` callback
then evaluates `typeof(f.url)` on `undefined`, raising a `TypeError` — while
a plain string entry is wrapped into `{url: entry}` as specified. -/
theorem C5_plugin_normalization_raises :
    getPlugins parseNone (.arr [.num 1]) = .error "TypeError"
    ∧ getPlugins parseNone (.str "https://x/y")
      = .ok [.obj [("url", .str "https://x/y")]] :=
  ⟨rfl, rfl⟩

theorem deployResolve_ok_fields {parse : String → Option Js} {params : Params}
    {ctx : Option Deployment} {c : Config}
    (h : deployResolve parse params ctx = .ok c) :
    c.dryRun = .str (lookupParam params "dry-run")
    ∧ c.atomic = (if (getInputV params ctx "atomic").truthy
        then getInputV params ctx "atomic" else .boolean true)
    ∧ c.task = getInputV params ctx "task"
    ∧ c.track = (if (getInputV params ctx "track").truthy
        then getInputV params ctx "track" else .str "stable") := by
  unfold deployResolve at h
  rcases h1 : getInputR params ctx "release" with e1 | a1 <;> rw [h1] at h
  · simp at h
  · rcases h2 : getInputR params ctx "namespace" with e2 | a2 <;> rw [h2] at h
    · simp at h
    · rcases h3 : getInputR params ctx "chart" with e3 | a3 <;> rw [h3] at h
      · simp at h
      · rw [Except.ok.injEq] at h
        subst h
        exact ⟨rfl, rfl, rfl, rfl⟩

/-- The configuration resolved from explicit inputs with `atomic` set to the
string `"true"`. -/
def cfgAtomicStr : Config :=
  { track := .str "stable", appName := .str "r", release := .str "r",
    nspace := .str "n", chart := .str "c", chartVersion := .str "",
    values := .str "", task := .str "", version := .str "",
    valueFiles := [], removeCanary := .str "", timeout := .str "",
    dryRun := .str "", atomic := .str "true" }

/-- C4 counterexample: with the input `atomic = "true"` — explicitly set, and
not set to false — the resolved atomic value is the string `"true"`, which
fails the source's `atomic === true` check, so `--atomic` is NOT appended.
This falsifies "`--atomic` is appended unless atomic is explicitly set
false". -/
theorem C4_atomic_counterexample :
    deployResolve parseNone
        [("release", "r"), ("namespace", "n"), ("chart", "c"),
         ("atomic", "true")] none
      = .ok cfgAtomicStr
    ∧ upgradeArgs cfgAtomicStr
      = .ok ["upgrade", "r", "c", "--install", "--wait", "--namespace=n",
             "--set=app.name=r"]
    ∧ "--atomic" ∉
      ["upgrade", "r", "c", "--install", "--wait", "--namespace=n",
       "--set=app.name=r"] :=
  ⟨rfl, rfl, by decide⟩

/-- C4 (amended): the synthesized upgrade command ends with `--atomic` iff
the resolved atomic value is strictly the boolean `true`; because
`getInput("atomic") || true` keeps any truthy input unchanged, a run without
a deployment context gets `--atomic` exactly when the explicit `atomic`
input is empty/absent — any non-empty string (`"false"` but also `"true"`)
suppresses the flag. -/
theorem C4_atomic_amended (c : Config) (parse : String → Option Js)
    (params : Params) (c2 : Config) :
    (atomicArgs c = ["--atomic"] ↔ c.atomic = .boolean true)
    ∧ (deployResolve parse params none = .ok c2 →
        (c2.atomic = .boolean true ↔ lookupParam params "atomic" = "")) := by
  constructor
  · rcases hca : c.atomic with s | n | b | _ | _ | l | f
    · simp [atomicArgs, Js.isBoolTrue, hca]
    · simp [atomicArgs, Js.isBoolTrue, hca]
    · cases b <;> simp [atomicArgs, Js.isBoolTrue, hca]
    · simp [atomicArgs, Js.isBoolTrue, hca]
    · simp [atomicArgs, Js.isBoolTrue, hca]
    · simp [atomicArgs, Js.isBoolTrue, hca]
    · simp [atomicArgs, Js.isBoolTrue, hca]
  · intro h
    have hat : c2.atomic = (if (getInputV params none "atomic").truthy
        then getInputV params none "atomic" else .boolean true) :=
      (deployResolve_ok_fields h).2.1
    have hg : getInputV params none "atomic"
        = .str (lookupParam params "atomic") := rfl
    rw [hg] at hat
    by_cases hs : lookupParam params "atomic" = ""
    · simp [Js.truthy, hs] at hat
      simp [hat, hs]
    · simp [Js.truthy, hs] at hat
      simp [hat, hs]

theorem C4_atomic_amended_witness :
    (atomicArgs cfgAtomicStr = ["--atomic"] ↔ cfgAtomicStr.atomic = .boolean true)
    ∧ (cfgAtomicStr.atomic = .boolean true ↔
        lookupParam [("release", "r"), ("namespace", "n"), ("chart", "c"),
          ("atomic", "true")] "atomic" = "") :=
  ⟨(C4_atomic_amended cfgAtomicStr parseNone
      [("release", "r"), ("namespace", "n"), ("chart", "c"),
       ("atomic", "true")] cfgAtomicStr).1,
   (C4_atomic_amended cfgAtomicStr parseNone
      [("release", "r"), ("namespace", "n"), ("chart", "c"),
       ("atomic", "true")] cfgAtomicStr).2 rfl⟩

/-- C1 (amended): a truthy deployment-payload field overrides everything, a
truthy deployment-object field overrides the explicit parameter, for every
input resolved through the deployment-aware `getInput` — but `dry-run` is
read with plain `core.getInput` and is always the explicit parameter,
whatever the deployment context holds. -/
theorem C1_context_override_amended (params : Params) (d : Deployment)
    (name : String) (parse : String → Option Js) (ctx : Option Deployment)
    (cfg : Config) :
    ((dlookup d.payload name).truthy = true →
      getInputV params (some d) name = dlookup d.payload name)
    ∧ ((dlookup d.payload name).truthy = false →
        (dlookup d.fields name).truthy = true →
        getInputV params (some d) name = dlookup d.fields name)
    ∧ (deployResolve parse params ctx = .ok cfg →
        cfg.dryRun = .str (lookupParam params "dry-run")) := by
  refine ⟨?_, ?_, ?_⟩
  · intro h
    simp [getInputV, h]
  · intro h1 h2
    simp [getInputV, h1, h2]
  · intro h
    exact (deployResolve_ok_fields h).1

/-- The configuration resolved when `dry-run` is `"x"` explicitly while the
deployment payload carries `dry-run = "y"`. -/
def cfgDryRunX : Config :=
  { track := .str "stable", appName := .str "r", release := .str "r",
    nspace := .str "n", chart := .str "c", chartVersion := .str "",
    values := .str "", task := .str "", version := .str "",
    valueFiles := [], removeCanary := .str "", timeout := .str "",
    dryRun := .str "x", atomic := .boolean true }

/-- C1 counterexample: `dry-run` is supplied both explicitly (`"x"`) and as a
non-empty deployment-payload field (`"y"`), yet the resolved value is the
explicit `"x"`, not the context value — the context override does not extend
to `dry-run`, which the source reads with plain `core.getInput`. -/
theorem C1_context_override_counterexample :
    deployResolve parseNone
        [("dry-run", "x"), ("release", "r"), ("namespace", "n"),
         ("chart", "c")]
        (some ⟨[], [("dry-run", Js.str "y")]⟩)
      = .ok cfgDryRunX
    ∧ cfgDryRunX.dryRun = .str "x"
    ∧ Js.str "x" ≠ Js.str "y"
    ∧ (dlookup [("dry-run", Js.str "y")] "dry-run").truthy = true :=
  ⟨rfl, rfl, by simp, rfl⟩

theorem C1_context_override_amended_witness :
    (getInputV [("track", "stable")]
        (some ⟨[("track", Js.str "obj")], [("track", Js.str "pay")]⟩) "track"
      = Js.str "pay")
    ∧ (getInputV [("track", "stable")]
        (some ⟨[("namespace", Js.str "objns")], []⟩) "namespace"
      = Js.str "objns")
    ∧ cfgDryRunX.dryRun
      = .str (lookupParam [("dry-run", "x"), ("release", "r"),
          ("namespace", "n"), ("chart", "c")] "dry-run") := by
  refine ⟨?_, ?_, ?_⟩
  · exact (C1_context_override_amended [("track", "stable")]
      ⟨[("track", Js.str "obj")], [("track", Js.str "pay")]⟩ "track"
      parseNone none cfgDryRunX).1 rfl
  · exact (C1_context_override_amended [("track", "stable")]
      ⟨[("namespace", Js.str "objns")], []⟩ "namespace"
      parseNone none cfgDryRunX).2.1 rfl rfl
  · exact (C1_context_override_amended
      [("dry-run", "x"), ("release", "r"), ("namespace", "n"), ("chart", "c")]
      ⟨[], []⟩ "x" parseNone
      (some ⟨[], [("dry-run", Js.str "y")]⟩) cfgDryRunX).2.2 rfl

/-- C2 (amended): when a required input (release, namespace or chart)
resolves empty, the run fails and no delete or upgrade command is ever
issued; if the repo and plugin stages completed without error, the run's
failure is exactly the `MissingRequiredInput` error naming the field.  (The
repo-add and plugin-install invocations of the earlier pipeline stages may
already have been issued — the resolution of the required inputs happens
inside `deploy`, the third stage.) -/
theorem C2_missing_input_amended (w : World) (parse : String → Option Js)
    (params : Params) (ctx : Option Deployment) (n : String)
    (h : deployResolve parse params ctx = .error (.missingInput n)) :
    (runAction w parse params ctx).1 ≠ .success
    ∧ noDeployDelete (runAction w parse params ctx).2 = true
    ∧ ((addRepoRun w params ctx (helmOf params ctx)).1 = Except.ok () →
       (installPluginsRun w parse params ctx (helmOf params ctx)).1 = Except.ok () →
       (runAction w parse params ctx).1 = .failure (.missingInput n)) := by
  have hrb := runBody_cases w parse params ctx
  have hpend := statusRun_shape params ctx "pending"
  have hfail := statusRun_shape params ctx "failure"
  rcases hA : addRepoRun w params ctx (helmOf params ctx) with ⟨rA, tA⟩
  have htA : ∀ ev ∈ tA, ev.isDeleteOrUpgrade = false := by
    intro ev hev
    apply addRepoRun_shape w params ctx (helmOf params ctx)
    rw [hA]
    exact hev
  rw [hA] at hrb
  cases rA with
  | error eA =>
    rw [runAction_of_body_error hrb]
    refine ⟨by simp, ?_, ?_⟩
    · apply noDeployDelete_of_shapes
      intro ev hev
      simp only [List.mem_append] at hev
      rcases hev with (hev | hev) | hev
      · exact hpend ev hev
      · exact htA ev hev
      · exact hfail ev hev
    · intro hA1 _
      simp at hA1
  | ok uA =>
    rcases hP : installPluginsRun w parse params ctx (helmOf params ctx)
      with ⟨rP, tP⟩
    have htP : ∀ ev ∈ tP, ev.isDeleteOrUpgrade = false := by
      intro ev hev
      apply installPluginsRun_shape w parse params ctx (helmOf params ctx)
      rw [hP]
      exact hev
    rw [hP] at hrb
    cases rP with
    | error eP =>
      rw [runAction_of_body_error hrb]
      refine ⟨by simp, ?_, ?_⟩
      · apply noDeployDelete_of_shapes
        intro ev hev
        simp only [List.mem_append] at hev
        rcases hev with (hev | hev | hev) | hev
        · exact hpend ev hev
        · exact htA ev hev
        · exact htP ev hev
        · exact hfail ev hev
      · intro _ hP1
        simp at hP1
    | ok uP =>
      rw [deployRun_resolve_error w (helmOf params ctx) h] at hrb
      rw [runAction_of_body_error hrb]
      refine ⟨by simp, ?_, fun _ _ => by simp⟩
      apply noDeployDelete_of_shapes
      intro ev hev
      simp only [List.mem_append, List.not_mem_nil, or_false] at hev
      rcases hev with (hev | hev | hev) | hev
      · exact hpend ev hev
      · exact htA ev hev
      · exact htP ev hev
      · exact hfail ev hev

/-- An exit-code oracle under which every process exits 0. -/
def worldZero : World := fun _ _ => 0

/-- Explicit inputs configuring a repo but omitting the required `release`. -/
def paramsRepoNoRelease : Params :=
  [("repo", "https://r"), ("repo-alias", "al"), ("namespace", "n"),
   ("chart", "c")]

/-- C2 counterexample: with a repository configured and the required
`release` input missing, the run does fail with the `MissingRequiredInput`
error naming `release` — but the `repo add` and `repo update` invocations
have already been issued by the earlier pipeline stage, falsifying "this
failure occurs before any external process invocation (no repo-add ...)". -/
theorem C2_missing_input_counterexample :
    runAction worldZero parseNone paramsRepoNoRelease none
      = (.failure (.missingInput "release"),
         [Event.exec "helm3" ["repo", "add", "al", "https://r"] false,
          Event.exec "helm3" ["repo", "update"] false]) := rfl

theorem C2_missing_input_amended_witness :
    (runAction worldZero parseNone paramsRepoNoRelease none).1 ≠ .success
    ∧ noDeployDelete (runAction worldZero parseNone paramsRepoNoRelease none).2
      = true
    ∧ (runAction worldZero parseNone paramsRepoNoRelease none).1
      = .failure (.missingInput "release") := by
  have hth := C2_missing_input_amended worldZero parseNone paramsRepoNoRelease
    none "release" rfl
  exact ⟨hth.1, hth.2.1, hth.2.2 rfl rfl⟩

/-- C3 (amended): when the resolved task is `"remove"` and the earlier
stages succeed (and the values entry enumeration does not throw), the run
issues the delete command for the primary release with its return code
ignored, and the run's terminal outcome is Success REGARDLESS of the delete
process's exit code (the statement holds for every exit-code oracle `w`):
the exit code of the delete invocation never influences the outcome. -/
theorem C3_remove_outcome_amended (w : World) (parse : String → Option Js)
    (params : Params) (ctx : Option Deployment) (cfg : Config)
    (es : List (String × Js))
    (hres : deployResolve parse params ctx = .ok cfg)
    (htask : cfg.task.isStrEq "remove" = true)
    (hes : jsEntries cfg.values = .ok es)
    (hA1 : (addRepoRun w params ctx (helmOf params ctx)).1 = Except.ok ())
    (hP1 : (installPluginsRun w parse params ctx (helmOf params ctx)).1
      = Except.ok ()) :
    (runAction w parse params ctx).1 = .success
    ∧ Event.exec (helmOf params ctx).toStr
        (deleteCmd (helmOf params ctx) cfg.nspace cfg.release) true
        ∈ (runAction w parse params ctx).2 := by
  have hup : upgradeArgs cfg = .ok (upgradeBaseArgs cfg ++ fileArgs cfg
      ++ setArgs es ++ canaryArgs cfg ++ atomicArgs cfg) := by
    unfold upgradeArgs
    rw [hes]
    rfl
  have hexec : deployExec w (helmOf params ctx) cfg
      = (Except.ok (w (helmOf params ctx).toStr
           (deleteCmd (helmOf params ctx) cfg.nspace cfg.release)),
         (if cfg.removeCanary.truthy
          then [Event.exec (helmOf params ctx).toStr
                  (deleteCmd (helmOf params ctx) cfg.nspace
                    (.str (cfg.appName.toStr ++ "-canary"))) true]
          else [])
         ++ [Event.exec (helmOf params ctx).toStr
               (deleteCmd (helmOf params ctx) cfg.nspace cfg.release) true]) := by
    unfold deployExec
    rw [hup]
    cases hrc : cfg.removeCanary.truthy <;>
      simp [hrc, htask, bindE, pureE, execE]
  have hD : deployRun w parse params ctx (helmOf params ctx)
      = (Except.ok (w (helmOf params ctx).toStr
           (deleteCmd (helmOf params ctx) cfg.nspace cfg.release)),
         (if cfg.removeCanary.truthy
          then [Event.exec (helmOf params ctx).toStr
                  (deleteCmd (helmOf params ctx) cfg.nspace
                    (.str (cfg.appName.toStr ++ "-canary"))) true]
          else [])
         ++ [Event.exec (helmOf params ctx).toStr
               (deleteCmd (helmOf params ctx) cfg.nspace cfg.release) true]) := by
    unfold deployRun
    rw [hres]
    exact hexec
  have hrb := runBody_cases w parse params ctx
  rcases hA : addRepoRun w params ctx (helmOf params ctx) with ⟨rA, tA⟩
  rw [hA] at hrb hA1
  cases rA with
  | error eA => simp at hA1
  | ok uA =>
    rcases hP : installPluginsRun w parse params ctx (helmOf params ctx)
      with ⟨rP, tP⟩
    rw [hP] at hrb hP1
    cases rP with
    | error eP => simp at hP1
    | ok uP =>
      rw [hD] at hrb
      rw [runAction_of_body_ok hrb]
      constructor
      · rfl
      · simp [List.mem_append]

/-- Explicit inputs for a `remove` task. -/
def paramsRemove : Params :=
  [("release", "rel"), ("namespace", "ns"), ("chart", "c"),
   ("task", "remove")]

/-- An exit-code oracle where exactly the primary-release delete command
exits non-zero. -/
def worldDeleteFails : World :=
  fun b a => if b = "helm3" ∧ a = ["delete", "-n", "ns", "rel"] then 1 else 0

/-- The configuration `paramsRemove` resolves to. -/
def cfgRemove : Config :=
  { track := .str "stable", appName := .str "rel", release := .str "rel",
    nspace := .str "ns", chart := .str "c", chartVersion := .str "",
    values := .str "", task := .str "remove", version := .str "",
    valueFiles := [], removeCanary := .str "", timeout := .str "",
    dryRun := .str "", atomic := .boolean true }

/-- C3 counterexample: the delete command for the primary release exits 1
(non-zero), yet the run's terminal outcome is Success — the source passes
`ignoreReturnCode: true` to the delete invocation and `run` discards the
returned exit code, falsifying "the run fails (with Failure status) if it
exits non-zero". -/
theorem C3_remove_outcome_counterexample :
    runAction worldDeleteFails parseNone paramsRemove none
      = (.success, [Event.exec "helm3" ["delete", "-n", "ns", "rel"] true])
    ∧ worldDeleteFails "helm3" ["delete", "-n", "ns", "rel"] = 1 :=
  ⟨rfl, rfl⟩

theorem C3_remove_outcome_amended_witness :
    (runAction worldDeleteFails parseNone paramsRemove none).1 = .success
    ∧ Event.exec (helmOf paramsRemove none).toStr
        (deleteCmd (helmOf paramsRemove none) cfgRemove.nspace cfgRemove.release)
        true
        ∈ (runAction worldDeleteFails parseNone paramsRemove none).2 :=
  C3_remove_outcome_amended worldDeleteFails parseNone paramsRemove none
    cfgRemove [] rfl rfl rfl rfl rfl

/-- C6: if any plugin install invocation in the run's trace fails (non-zero
exit), no deploy (upgrade) or delete invocation is issued in that run, the
run does not succeed, and exactly one Failure status notification is
attempted (notifications require a token and a deployment context, which are
assumed present). -/
theorem C6_plugin_failure_isolation (w : World) (parse : String → Option Js)
    (params : Params) (d : Deployment) (b : String) (rest : List String)
    (htoken : lookupParam params "token" ≠ "")
    (hmem : Event.exec b ("plugin" :: "install" :: rest) false
      ∈ (runAction w parse params (some d)).2)
    (hw : w b ("plugin" :: "install" :: rest) ≠ 0) :
    noDeployDelete (runAction w parse params (some d)).2 = true
    ∧ countFailNotify (runAction w parse params (some d)).2 = 1
    ∧ (runAction w parse params (some d)).1 ≠ .success := by
  have hrb := runBody_cases w parse params (some d)
  have hstat : ∀ s, Event.exec b ("plugin" :: "install" :: rest) false
      ∉ (statusRun params (some d) s).2 := by
    intro s hmem2
    have := statusRun_events params (some d) s _ hmem2
    simp at this
  rcases hA : addRepoRun w params (some d) (helmOf params (some d)) with ⟨rA, tA⟩
  rw [hA] at hrb
  have htA : Event.exec b ("plugin" :: "install" :: rest) false ∉ tA := by
    intro hmem2
    have : Event.argHead (Event.exec b ("plugin" :: "install" :: rest) false)
        = some "repo" := by
      apply addRepoRun_events w params (some d) (helmOf params (some d))
      rw [hA]
      exact hmem2
    simp [Event.argHead] at this
  have htAshape : ∀ ev ∈ tA, ev.isDeleteOrUpgrade = false := by
    intro ev hev
    apply addRepoRun_shape w params (some d) (helmOf params (some d))
    rw [hA]
    exact hev
  have htAcount : countFailNotify tA = 0 := by
    have := addRepoRun_countFail w params (some d) (helmOf params (some d))
    rw [hA] at this
    exact this
  cases rA with
  | error eA =>
    exfalso
    rw [runAction_of_body_error hrb] at hmem
    simp only [List.mem_append] at hmem
    rcases hmem with (hmem | hmem) | hmem
    · exact hstat "pending" hmem
    · exact htA hmem
    · exact hstat "failure" hmem
  | ok uA =>
    rcases hP : installPluginsRun w parse params (some d) (helmOf params (some d))
      with ⟨rP, tP⟩
    rw [hP] at hrb
    have htPshape : ∀ ev ∈ tP, ev.isDeleteOrUpgrade = false := by
      intro ev hev
      apply installPluginsRun_shape w parse params (some d) (helmOf params (some d))
      rw [hP]
      exact hev
    have htPcount : countFailNotify tP = 0 := by
      have := installPluginsRun_countFail w parse params (some d)
        (helmOf params (some d))
      rw [hP] at this
      exact this
    cases rP with
    | error eP =>
      rw [runAction_of_body_error hrb]
      refine ⟨?_, ?_, by simp⟩
      · apply noDeployDelete_of_shapes
        intro ev hev
        simp only [List.mem_append] at hev
        rcases hev with (hev | hev | hev) | hev
        · exact statusRun_shape params (some d) "pending" ev hev
        · exact htAshape ev hev
        · exact htPshape ev hev
        · exact statusRun_shape params (some d) "failure" ev hev
      · rw [countFailNotify_append, countFailNotify_append,
          countFailNotify_append, htAcount, htPcount,
          statusRun_countFail params (some d) "pending" (by decide),
          statusRun_some_token params d "failure" htoken]
        rfl
    | ok uP =>
      exfalso
      have htP : Event.exec b ("plugin" :: "install" :: rest) false ∉ tP := by
        intro hmem2
        have hfail2 : ∃ e,
            (installPluginsRun w parse params (some d) (helmOf params (some d))).1
              = Except.error e := by
          apply installPluginsRun_fail w parse params (some d)
            (helmOf params (some d)) b rest ?_ hw
          rw [hP]
          exact hmem2
        rcases hfail2 with ⟨e, he⟩
        rw [hP] at he
        simp at he
      rcases hD : deployRun w parse params (some d) (helmOf params (some d))
        with ⟨rD, tD⟩
      rw [hD] at hrb
      have htD : Event.exec b ("plugin" :: "install" :: rest) false ∉ tD := by
        intro hmem2
        have := deployRun_events w parse params (some d) (helmOf params (some d))
          (Event.exec b ("plugin" :: "install" :: rest) false) ?_
        · rcases this with h | h <;> simp [Event.argHead] at h
        · rw [hD]
          exact hmem2
      cases rD with
      | error eD =>
        rw [runAction_of_body_error hrb] at hmem
        simp only [List.mem_append] at hmem
        rcases hmem with (hmem | hmem | hmem | hmem) | hmem
        · exact hstat "pending" hmem
        · exact htA hmem
        · exact htP hmem
        · exact htD hmem
        · exact hstat "failure" hmem
      | ok cD =>
        rw [runAction_of_body_ok hrb] at hmem
        simp only [List.mem_append] at hmem
        rcases hmem with hmem | hmem | hmem | hmem | hmem
        · exact hstat "pending" hmem
        · exact htA hmem
        · exact htP hmem
        · exact htD hmem
        · exact hstat "success" hmem

/-- Explicit inputs with a token and one plugin whose install will fail. -/
def paramsPluginFails : Params :=
  [("release", "r"), ("namespace", "n"), ("chart", "c"), ("token", "t"),
   ("plugins", "u")]

/-- An exit-code oracle where exactly the plugin install invocation exits
non-zero. -/
def worldPluginFails : World :=
  fun b a => if b = "helm3" ∧ a = ["plugin", "install", "u"] then 1 else 0

/-- A deployment context carrying no overriding fields. -/
def emptyDeployment : Deployment := ⟨[], []⟩

theorem C6_plugin_failure_isolation_witness :
    noDeployDelete (runAction worldPluginFails parseNone paramsPluginFails
      (some emptyDeployment)).2 = true
    ∧ countFailNotify (runAction worldPluginFails parseNone paramsPluginFails
      (some emptyDeployment)).2 = 1
    ∧ (runAction worldPluginFails parseNone paramsPluginFails
      (some emptyDeployment)).1 ≠ .success :=
  C6_plugin_failure_isolation worldPluginFails parseNone paramsPluginFails
    emptyDeployment "helm3" ["u"] (by decide) (by decide) (by decide)
